import Mathlib

/-!
Verification development for `motion.js` of sherlaimov/motion-chart
(the second source file is a whitespace/log-variant of the same script;
the embedded logic below is identical in both).

Part 1 embeds the sparse time-series lookup `interpolateValues`, which the
script builds on `d3.bisector(d => d[0]).left`.  Series are `List (ℚ × ℚ)`
of `(year, value)` pairs; JavaScript numbers on these code paths are exact
rationals, so `ℚ` is a faithful carrier.

Part 2 embeds the play/stop/scrub machinery around `window.pVals`
(`lastTween`, `currTween`, `currYear`), the `transition()` sweep and its
`tweenYear` closure, the slider `slide` handler with `calRatio`, and the
overlay `mousemove` scrub through `displayYear`.  Values stored in
`window.pVals` can be `null` or `NaN` (the `start` handler invokes the
tween closure with an `undefined` argument), so those fields live in a
three-valued type `JSVal` whose arithmetic follows JavaScript coercion:
`null` coerces to `0`, `NaN` (and `undefined`, which behaves identically
in every operation these code paths perform) absorbs.
-/

namespace Motion

/-- The loop of `d3.bisector(d => d[0]).left(values, x, lo, hi)`:
`while (lo < hi) { mid = (lo + hi) >>> 1; if (a[mid][0] < x) lo = mid + 1;
else hi = mid; } return lo;`.  The loop shrinks `hi - lo` on every
iteration, so a fuel of `hi - lo` (supplied by `bisectLeft`) makes the
recursion structural.  Out-of-range reads mirror `values[i]` with a
placeholder pair; the callers proved about below stay in range. -/
def bisectLeftAux (values : List (ℚ × ℚ)) (x : ℚ) : ℕ → ℕ → ℕ → ℕ
  | 0, lo, _ => lo
  | fuel + 1, lo, hi =>
    if lo < hi then
      let mid := (lo + hi) / 2
      if (values.getD mid (0, 0)).1 < x then bisectLeftAux values x fuel (mid + 1) hi
      else bisectLeftAux values x fuel lo mid
    else lo

/-- `d3.bisector(d => d[0]).left` on a series of `(year, value)` pairs. -/
def bisectLeft (values : List (ℚ × ℚ)) (x : ℚ) (lo hi : ℕ) : ℕ :=
  bisectLeftAux values x (hi - lo) lo hi

/-- `interpolateValues(values, year)` from the script:
`const i = bisect.left(values, year, 0, values.length - 1);
const a = values[i];
if (i > 0) { const b = values[i - 1];
  const t = (year - a[0]) / (b[0] - a[0]);
  return a[1] * (1 - t) + b[1] * t; }
return a[1];` -/
def interpolateValues (values : List (ℚ × ℚ)) (year : ℚ) : ℚ :=
  let i := bisectLeft values year 0 (values.length - 1)
  let a := values.getD i (0, 0)
  if 0 < i then
    let b := values.getD (i - 1) (0, 0)
    let t := (year - a.1) / (b.1 - a.1)
    a.2 * (1 - t) + b.2 * t
  else
    a.2

/-- Years strictly ascending along the series (the ordering the script's
bisector assumes and the spec states as a precondition). -/
def sortedStrict (values : List (ℚ × ℚ)) : Prop :=
  values.Pairwise (fun a b => a.1 < b.1)

/-- Years weakly ascending along the series. -/
def sortedLe (values : List (ℚ × ℚ)) : Prop :=
  values.Pairwise (fun a b => a.1 ≤ b.1)

instance (values : List (ℚ × ℚ)) : Decidable (sortedStrict values) :=
  inferInstanceAs (Decidable (values.Pairwise _))

instance (values : List (ℚ × ℚ)) : Decidable (sortedLe values) :=
  inferInstanceAs (Decidable (values.Pairwise _))

lemma sortedStrict.le {values : List (ℚ × ℚ)} (h : sortedStrict values) :
    sortedLe values :=
  h.imp (fun hab => le_of_lt hab)

lemma sortedStrict.getD_lt {values : List (ℚ × ℚ)} (h : sortedStrict values)
    {i j : ℕ} (hij : i < j) (hj : j < values.length) :
    (values.getD i (0, 0)).1 < (values.getD j (0, 0)).1 := by
  have hi : i < values.length := lt_trans hij hj
  rw [values.getD_eq_getElem (0, 0) hi, values.getD_eq_getElem (0, 0) hj]
  exact List.pairwise_iff_getElem.1 h i j hi hj hij

lemma sortedLe.getD_le {values : List (ℚ × ℚ)} (h : sortedLe values)
    {i j : ℕ} (hij : i ≤ j) (hj : j < values.length) :
    (values.getD i (0, 0)).1 ≤ (values.getD j (0, 0)).1 := by
  rcases lt_or_eq_of_le hij with hlt | rfl
  · have hi : i < values.length := lt_trans hlt hj
    rw [values.getD_eq_getElem (0, 0) hi, values.getD_eq_getElem (0, 0) hj]
    exact List.pairwise_iff_getElem.1 h i j hi hj hlt
  · exact le_refl _

/-- Correctness of the embedded bisect loop on a weakly sorted series:
the result lies in `[lo, hi]`, every index strictly below it holds a year
below `x`, and (when the result is below `hi`) the year at the result is
at least `x`. -/
lemma bisectLeftAux_spec (values : List (ℚ × ℚ)) (x : ℚ)
    (hmono : sortedLe values) :
    ∀ (fuel lo hi : ℕ), hi - lo ≤ fuel → lo ≤ hi → hi ≤ values.length →
      lo ≤ bisectLeftAux values x fuel lo hi ∧
      bisectLeftAux values x fuel lo hi ≤ hi ∧
      (∀ j, lo ≤ j → j < bisectLeftAux values x fuel lo hi →
        (values.getD j (0, 0)).1 < x) ∧
      (bisectLeftAux values x fuel lo hi < hi →
        x ≤ (values.getD (bisectLeftAux values x fuel lo hi) (0, 0)).1) := by
  intro fuel
  induction fuel with
  | zero =>
    intro lo hi hf hle hlen
    have hlohi : lo = hi := by omega
    subst hlohi
    refine ⟨le_refl _, le_refl _, ?_, ?_⟩
    · intro j hj hjlt
      simp only [bisectLeftAux] at hjlt
      omega
    · intro hlt
      simp only [bisectLeftAux] at hlt
      omega
  | succ n ih =>
    intro lo hi hf hle hlen
    by_cases h : lo < hi
    · have hmlo : lo ≤ (lo + hi) / 2 := by omega
      have hmhi : (lo + hi) / 2 < hi := by omega
      by_cases hcmp : (values.getD ((lo + hi) / 2) (0, 0)).1 < x
      · have hres : bisectLeftAux values x (n + 1) lo hi =
            bisectLeftAux values x n ((lo + hi) / 2 + 1) hi := by
          simp only [bisectLeftAux, if_pos h, if_pos hcmp]
        obtain ⟨h1, h2, h3, h4⟩ :=
          ih ((lo + hi) / 2 + 1) hi (by omega) (by omega) hlen
        rw [hres]
        refine ⟨by omega, h2, ?_, h4⟩
        intro j hj hjlt
        by_cases hjm : j ≤ (lo + hi) / 2
        · exact lt_of_le_of_lt
            (hmono.getD_le hjm (lt_of_lt_of_le hmhi hlen)) hcmp
        · exact h3 j (by omega) hjlt
      · have hres : bisectLeftAux values x (n + 1) lo hi =
            bisectLeftAux values x n lo ((lo + hi) / 2) := by
          simp only [bisectLeftAux, if_pos h, if_neg hcmp]
        obtain ⟨h1, h2, h3, h4⟩ :=
          ih lo ((lo + hi) / 2) (by omega) (by omega) (by omega)
        rw [hres]
        refine ⟨h1, by omega, h3, ?_⟩
        intro hlt
        by_cases hrm : bisectLeftAux values x n lo ((lo + hi) / 2) < (lo + hi) / 2
        · exact h4 hrm
        · have heq : bisectLeftAux values x n lo ((lo + hi) / 2) = (lo + hi) / 2 := by
            omega
          rw [heq]
          exact le_of_not_lt hcmp
    · have hres : bisectLeftAux values x (n + 1) lo hi = lo := by
        simp only [bisectLeftAux, if_neg h]
      rw [hres]
      refine ⟨le_refl _, hle, ?_, ?_⟩
      · intro j hj hjlt; omega
      · intro hlt; omega

lemma bisectLeft_spec (values : List (ℚ × ℚ)) (x : ℚ)
    (hmono : sortedLe values) (lo hi : ℕ) (hle : lo ≤ hi)
    (hlen : hi ≤ values.length) :
    lo ≤ bisectLeft values x lo hi ∧
    bisectLeft values x lo hi ≤ hi ∧
    (∀ j, lo ≤ j → j < bisectLeft values x lo hi →
      (values.getD j (0, 0)).1 < x) ∧
    (bisectLeft values x lo hi < hi →
      x ≤ (values.getD (bisectLeft values x lo hi) (0, 0)).1) :=
  bisectLeftAux_spec values x hmono (hi - lo) lo hi (le_refl _) hle hlen

/-- On a series whose `k`-th year is strictly below `x` with `x` at most
the `(k+1)`-st year, `interpolateValues`' bisection lands at `k + 1`. -/
lemma bisectLeft_between {values : List (ℚ × ℚ)} {x : ℚ} {k : ℕ}
    (hmono : sortedLe values) (hk : k + 1 < values.length)
    (hlo : (values.getD k (0, 0)).1 < x)
    (hhi : x ≤ (values.getD (k + 1) (0, 0)).1) :
    bisectLeft values x 0 (values.length - 1) = k + 1 := by
  obtain ⟨h1, h2, h3, h4⟩ :=
    bisectLeft_spec values x hmono 0 (values.length - 1) (by omega) (by omega)
  set i := bisectLeft values x 0 (values.length - 1) with hi
  by_contra hne
  rcases lt_or_gt_of_ne hne with hlt | hgt
  · -- i ≤ k: the year at i is at least x yet at most the year at k, below x
    have hilen : i < values.length - 1 := by omega
    have := h4 hilen
    have := hmono.getD_le (show i ≤ k by omega) (by omega)
    linarith
  · -- i ≥ k + 2: position k + 1 would hold a year strictly below x
    have := h3 (k + 1) (by omega) (by omega)
    linarith

/-- When `x` is at most the first year, the bisection lands at `0`. -/
lemma bisectLeft_low {values : List (ℚ × ℚ)} {x : ℚ}
    (hmono : sortedLe values) (hne : 0 < values.length)
    (hx : x ≤ (values.getD 0 (0, 0)).1) :
    bisectLeft values x 0 (values.length - 1) = 0 := by
  obtain ⟨h1, h2, h3, h4⟩ :=
    bisectLeft_spec values x hmono 0 (values.length - 1) (by omega) (by omega)
  by_contra hne0
  have := h3 0 (by omega) (by omega)
  linarith

/-- When `x` exceeds the last year, the bisection is capped at
`values.length - 1` (the `hi` bound the script passes). -/
lemma bisectLeft_high {values : List (ℚ × ℚ)} {x : ℚ}
    (hmono : sortedLe values) (hlen : 2 ≤ values.length)
    (hx : (values.getD (values.length - 1) (0, 0)).1 < x) :
    bisectLeft values x 0 (values.length - 1) = values.length - 1 := by
  obtain ⟨h1, h2, h3, h4⟩ :=
    bisectLeft_spec values x hmono 0 (values.length - 1) (by omega) (by omega)
  set i := bisectLeft values x 0 (values.length - 1) with hi
  by_contra hne
  have hilt : i < values.length - 1 := by omega
  have := h4 hilt
  have := hmono.getD_le (show i ≤ values.length - 1 by omega) (by omega)
  linarith

/-- The script's interpolant, written from the upper sample with a
reversed denominator, equals the standard interpolant written from the
lower sample. -/
lemma interp_reverse (ly lv uy uv y : ℚ) (h : ly ≠ uy) :
    uv * (1 - (y - uy) / (ly - uy)) + lv * ((y - uy) / (ly - uy)) =
    lv * (1 - (y - ly) / (uy - ly)) + uv * ((y - ly) / (uy - ly)) := by
  have h1 : ly - uy ≠ 0 := sub_ne_zero.2 h
  have h2 : uy - ly ≠ 0 := sub_ne_zero.2 (Ne.symm h)
  field_simp
  ring

/-- The script's interpolant evaluated past the last sample is the linear
extrapolation of the last two samples. -/
lemma extrapolate_reverse (sy sv ly lv y : ℚ) (h : sy ≠ ly) :
    lv * (1 - (y - ly) / (sy - ly)) + sv * ((y - ly) / (sy - ly)) =
    lv + (y - ly) * (lv - sv) / (ly - sy) := by
  have h1 : sy - ly ≠ 0 := sub_ne_zero.2 h
  have h2 : ly - sy ≠ 0 := sub_ne_zero.2 (Ne.symm h)
  field_simp
  ring

/-- C1.  With the query year strictly between the adjacent samples at `k`
(lower) and `k + 1` (upper) of a strictly ascending series,
`interpolateValues` returns `lower.value * (1 - t) + upper.value * t` with
`t = (year - lower.year) / (upper.year - lower.year)`: the script's
reversed fraction computed from the upper sample is algebraically the
same interpolant. -/
theorem interpolateValues_between (values : List (ℚ × ℚ)) (k : ℕ) (year : ℚ)
    (hs : sortedStrict values) (hk : k + 1 < values.length)
    (hlo : (values.getD k (0, 0)).1 < year)
    (hhi : year < (values.getD (k + 1) (0, 0)).1) :
    interpolateValues values year =
      (values.getD k (0, 0)).2 *
        (1 - (year - (values.getD k (0, 0)).1) /
          ((values.getD (k + 1) (0, 0)).1 - (values.getD k (0, 0)).1)) +
      (values.getD (k + 1) (0, 0)).2 *
        ((year - (values.getD k (0, 0)).1) /
          ((values.getD (k + 1) (0, 0)).1 - (values.getD k (0, 0)).1)) := by
  have hidx : bisectLeft values year 0 (values.length - 1) = k + 1 :=
    bisectLeft_between hs.le hk hlo (le_of_lt hhi)
  have hyk : (values.getD k (0, 0)).1 < (values.getD (k + 1) (0, 0)).1 :=
    hs.getD_lt (Nat.lt_succ_self k) hk
  simp only [interpolateValues, hidx, if_pos (Nat.succ_pos k),
    Nat.add_sub_cancel]
  exact interp_reverse _ _ _ _ _ (ne_of_lt hyk)

/-- C6.  Querying a strictly ascending series (at least two samples) at
the year of its `k`-th sample returns exactly that sample's value. -/
theorem interpolateValues_at_sample (values : List (ℚ × ℚ)) (k : ℕ)
    (hs : sortedStrict values) (hlen : 2 ≤ values.length)
    (hk : k < values.length) :
    interpolateValues values (values.getD k (0, 0)).1 =
      (values.getD k (0, 0)).2 := by
  rcases Nat.eq_zero_or_pos k with rfl | hkpos
  · have hidx : bisectLeft values (values.getD 0 (0, 0)).1 0
        (values.length - 1) = 0 :=
      bisectLeft_low hs.le (by omega) (le_refl _)
    simp only [interpolateValues, hidx, lt_self_iff_false, if_false]
  · obtain ⟨j, rfl⟩ : ∃ j, k = j + 1 := ⟨k - 1, by omega⟩
    have hidx : bisectLeft values (values.getD (j + 1) (0, 0)).1 0
        (values.length - 1) = j + 1 :=
      bisectLeft_between hs.le hk (hs.getD_lt (Nat.lt_succ_self j) hk)
        (le_refl _)
    simp only [interpolateValues, hidx, if_pos (Nat.succ_pos j),
      Nat.add_sub_cancel, sub_self, zero_div, mul_zero, sub_zero, mul_one,
      add_zero]

/-- C7.  Querying a weakly ascending non-empty series at or below its
first year returns the first sample's value (flat extrapolation before
the earliest data point), however far below the query lies. -/
theorem interpolateValues_before_first (values : List (ℚ × ℚ)) (year : ℚ)
    (hmono : sortedLe values) (hne : 0 < values.length)
    (hy : year ≤ (values.getD 0 (0, 0)).1) :
    interpolateValues values year = (values.getD 0 (0, 0)).2 := by
  have hidx : bisectLeft values year 0 (values.length - 1) = 0 :=
    bisectLeft_low hmono hne hy
  simp [interpolateValues, hidx]

/-- C9.  Querying a strictly ascending series (at least two samples)
strictly beyond its last year is total: the bisection is capped at the
last element and the result is the linear extrapolation of the last two
samples. -/
theorem interpolateValues_after_last (values : List (ℚ × ℚ)) (year : ℚ)
    (hs : sortedStrict values) (hlen : 2 ≤ values.length)
    (hy : (values.getD (values.length - 1) (0, 0)).1 < year) :
    interpolateValues values year =
      (values.getD (values.length - 1) (0, 0)).2 +
        (year - (values.getD (values.length - 1) (0, 0)).1) *
          ((values.getD (values.length - 1) (0, 0)).2 -
            (values.getD (values.length - 2) (0, 0)).2) /
          ((values.getD (values.length - 1) (0, 0)).1 -
            (values.getD (values.length - 2) (0, 0)).1) := by
  have hidx : bisectLeft values year 0 (values.length - 1) =
      values.length - 1 :=
    bisectLeft_high hs.le hlen hy
  have hyk : (values.getD (values.length - 2) (0, 0)).1 <
      (values.getD (values.length - 1) (0, 0)).1 :=
    hs.getD_lt (by omega) (by omega)
  have hsub : values.length - 1 - 1 = values.length - 2 := by omega
  simp only [interpolateValues, hidx, if_pos (show 0 < values.length - 1 by omega),
    hsub]
  exact extrapolate_reverse _ _ _ _ _ (ne_of_lt hyk)

/-! ## Part 2: the playback machinery

JavaScript values stored in `window.pVals` and flowing through the tween:
finite numbers, `null` (initial `currTween`/`currYear`), and `NaN`.  The
`start` listener invokes the tween closure with no argument, so `t` is
`undefined` there; on every operation these code paths perform
(`+`, `-`, `*`, `/`, `Math.round`, truthiness under `||`), `undefined`
behaves exactly like `NaN`, so both are embedded as `nan`. -/

/-- A JavaScript number-ish value as used by `window.pVals`. -/
inductive JSVal where
  | num (q : ℚ)
  | null
  | nan
deriving DecidableEq

namespace JSVal

/-- Numeric coercion: `null` coerces to `0`; `NaN`/`undefined` have no
finite coercion. -/
def toQ : JSVal → Option ℚ
  | num q => some q
  | null => some 0
  | nan => none

end JSVal

/-- JavaScript `+` on the values above. -/
def jsAdd (a b : JSVal) : JSVal :=
  match a.toQ, b.toQ with
  | some x, some y => .num (x + y)
  | _, _ => .nan

/-- JavaScript `-`. -/
def jsSub (a b : JSVal) : JSVal :=
  match a.toQ, b.toQ with
  | some x, some y => .num (x - y)
  | _, _ => .nan

/-- JavaScript `*`. -/
def jsMul (a b : JSVal) : JSVal :=
  match a.toQ, b.toQ with
  | some x, some y => .num (x * y)
  | _, _ => .nan

/-- JavaScript `/`.  A zero divisor yields a non-finite value
(`Infinity` or `NaN`), embedded as `nan`; the script only ever divides by
the constant `2009 - 1800`. -/
def jsDiv (a b : JSVal) : JSVal :=
  match a.toQ, b.toQ with
  | some x, some y => if y = 0 then .nan else .num (x / y)
  | _, _ => .nan

/-- `Math.round`: round half toward positive infinity.  `Math.round(null)`
is `0`; `Math.round(NaN)` is `NaN`. -/
def jsRound (v : JSVal) : JSVal :=
  match v.toQ with
  | some q => .num ((⌊q + 1 / 2⌋ : ℤ) : ℚ)
  | none => .nan

/-- `+(v || d)` for a truthy numeric default `d`: the script's
`window.pVals.currYear || 1800` coerced by `d3.interpolateNumber`. -/
def jsOrNum : JSVal → ℚ → ℚ
  | .num q, d => if q = 0 then d else q
  | _, d => d

/-- `d3.interpolateNumber(a, b)` applied at `t`:
`a * (1 - t) + b * t`, under the coercions above. -/
def jsInterp (a b : ℚ) (t : JSVal) : JSVal :=
  jsAdd (jsMul (.num a) (jsSub (.num 1) t)) (jsMul (.num b) t)

/-- `window.pVals`: `{ lastTween: 0, currTween: null, currYear: null }`
plus the `calRatio` method. -/
structure PVals where
  lastTween : JSVal
  currTween : JSVal
  currYear : JSVal
deriving DecidableEq

/-- `calRatio()`:
`const allWidth = 2009 - 1800; const diff = this.currYear - 1800;
this.lastTween = diff / allWidth;` -/
def calRatio (p : PVals) : PVals :=
  { p with lastTween := jsDiv (jsSub p.currYear (.num 1800)) (.num (2009 - 1800)) }

/-- One call to the rendering path `displayYear(year)`:
`dot.data(interpolateData(year), key).call(position).sort(order);
label.text(Math.round(year)); $('#slider').slider('value', Math.round(year));`
recorded as the fractional year handed to `interpolateData`, the label
text, and the slider indicator value.  (The slider's programmatic
`change` handler only rewrites the handle text; every state-mutating line
in it is commented out, so no feedback into `window.pVals` occurs.) -/
structure DispOut where
  dataYear : JSVal
  labelText : JSVal
  sliderValue : JSVal
deriving DecidableEq

def displayYear (y : JSVal) : DispOut :=
  ⟨y, jsRound y, jsRound y⟩

/-- One entity of `nations.json`: name, region and three sparse series. -/
structure Nation where
  name : String
  region : String
  income : List (ℚ × ℚ)
  population : List (ℚ × ℚ)
  lifeExpectancy : List (ℚ × ℚ)
deriving DecidableEq

/-- One record of the frame `interpolateData` builds. -/
structure FrameEntry where
  name : String
  region : String
  income : ℚ
  population : ℚ
  lifeExpectancy : ℚ
deriving DecidableEq

/-- `interpolateData(year)` from the script. -/
def interpolateData (nations : List Nation) (year : ℚ) : List FrameEntry :=
  nations.map fun d =>
    { name := d.name, region := d.region,
      income := interpolateValues d.income year,
      population := interpolateValues d.population year,
      lifeExpectancy := interpolateValues d.lifeExpectancy year }

/-- The frame the render sink receives for a display call at a finite
data year; a non-finite year carries no finite-year frame. -/
def frameOf (nations : List Nation) (v : JSVal) : Option (List FrameEntry) :=
  match v with
  | .num q => some (interpolateData nations q)
  | _ => none

/-- The closure `tweenYear()` returns, applied at tween parameter `t`
with `base` the captured `interpolateNumber` start:
`t += window.pVals.lastTween; window.pVals.currTween = t;
window.pVals.currYear = Math.round(year(t)); displayYear(year(t));` -/
def tickClosure (base : ℚ) (t : JSVal) (p : PVals) : PVals × DispOut :=
  let u := jsAdd t p.lastTween
  let yr := jsInterp base 2009 u
  ({ p with currTween := u, currYear := jsRound yr }, displayYear yr)

/-- One d3 schedule for the named transition `'yeah'` on the chart
element: scheduled-but-not-started (its duration is evaluated at the
`transition()` call), or running with the `interpolateNumber` base the
tween factory captured when it started. -/
inductive Sched where
  | pending (id : ℕ) (dur : JSVal)
  | running (id : ℕ) (dur : JSVal) (base : ℚ)
deriving DecidableEq

def Sched.sid : Sched → ℕ
  | .pending i _ => i
  | .running i _ _ => i

def isRunning : Sched → Bool
  | .pending _ _ => false
  | .running _ _ _ => true

/-- The earliest not-yet-started schedule (schedules are kept in creation
order, matching d3's increasing transition ids). -/
def firstPending? : List Sched → Option (ℕ × JSVal)
  | [] => none
  | .pending i d :: _ => some (i, d)
  | .running _ _ _ :: rest => firstPending? rest

/-- The running schedule, as id and captured base. -/
def firstRunning? : List Sched → Option (ℕ × ℚ)
  | [] => none
  | .running i _ b :: _ => some (i, b)
  | .pending _ _ :: rest => firstRunning? rest

/-- The whole mutable world the playback code touches: `window.pVals`
and the d3 schedules for the `'yeah'` transition. -/
structure MState where
  pv : PVals
  scheds : List Sched
  nextId : ℕ
deriving DecidableEq

/-- Initial state: `pVals` as initialized in the script, no transition. -/
def init : MState :=
  ⟨⟨.num 0, .null, .null⟩, [], 0⟩

/-- Events the browser can deliver to this code.
`start`/`stop` are the play and stop buttons; `fire` is the timer tick
that starts the earliest scheduled `'yeah'` transition (d3 interrupts a
running same-named transition at that moment, dispatching `interrupt` on
it, then dispatches `start` on the new one and only afterwards
initializes its tweens); `tick t` is a tween invocation at eased elapsed
fraction `t` (`d3.easeLinear`); `finish` is the final `t = 1` invocation
followed by the `end` event (whose `enableInteraction` touches no
playback state: its inner `svg.transition().duration(0)` targets the
unnamed transition, not `'yeah'`); `slide v` is the jQuery slider's
`slide` handler; `scrub y` is the overlay `mousemove` with the pointer
position already inverted and clamped to a year. -/
inductive Ev where
  | start
  | fire
  | tick (t : ℚ)
  | finish
  | stop
  | slide (v : ℚ)
  | scrub (y : ℚ)
deriving DecidableEq

/-- `const duration = 209000;` -/
def totalDuration : ℚ := 209000

/-- One event step, returning the new state and the `displayYear` calls
emitted, in order. -/
def step (s : MState) : Ev → MState × List DispOut
  | .start =>
    -- startPlaying -> transition(): schedules a new 'yeah' transition;
    -- .duration(d => duration - duration * window.pVals.lastTween) is
    -- evaluated at this call.
    ({ s with
        scheds := s.scheds ++ [.pending s.nextId
          (jsSub (.num totalDuration) (jsMul (.num totalDuration) s.pv.lastTween))],
        nextId := s.nextId + 1 }, [])
  | .fire =>
    match firstPending? s.scheds with
    | none => (s, [])
    | some (i, d) =>
      -- interrupt a running same-named transition: its registered
      -- handler runs `window.pVals.lastTween = window.pVals.currTween`
      let pv1 := if s.scheds.any isRunning then
        { s.pv with lastTween := s.pv.currTween } else s.pv
      -- the new transition's own 'start' handler: `tweenYear(d)()`,
      -- i.e. the closure applied at t = undefined
      let r := tickClosure (jsOrNum pv1.currYear 1800) .nan pv1
      -- then d3 initializes the tween: the factory runs `tweenYear()`
      -- and captures interpolateNumber(currYear || 1800, 2009)
      let base := jsOrNum r.1.currYear 1800
      ({ s with
          pv := r.1
          scheds := (s.scheds.filter fun sc => !isRunning sc && sc.sid != i)
            ++ [.running i d base] },
        [r.2])
  | .tick t =>
    match firstRunning? s.scheds with
    | none => (s, [])
    | some (_, b) =>
      let r := tickClosure b (.num t) s.pv
      ({ s with pv := r.1 }, [r.2])
  | .finish =>
    match firstRunning? s.scheds with
    | none => (s, [])
    | some (i, b) =>
      let r := tickClosure b (.num 1) s.pv
      ({ s with
          pv := r.1
          scheds := s.scheds.filter fun sc => sc.sid != i }, [r.2])
  | .stop =>
    -- stopPlaying -> svg.interrupt('yeah'): a running transition gets
    -- its 'interrupt' handler dispatched; scheduled ones are cancelled
    -- silently (no 'cancel' handler is registered); all are removed.
    let pv1 := if s.scheds.any isRunning then
      { s.pv with lastTween := s.pv.currTween } else s.pv
    ({ s with pv := pv1, scheds := [] }, [])
  | .slide v =>
    -- slide(event, ui): handle.text(ui.value);
    -- window.pVals.currYear = ui.value; window.pVals.calRatio();
    -- displayYear(ui.value);
    let pv1 := calRatio { s.pv with currYear := .num v }
    ({ s with pv := pv1 }, [displayYear (.num v)])
  | .scrub y =>
    -- mousemove: displayYear(yearScale.invert(d3.mouse(this)[0]));
    -- the commented-out `window.pVals.currYear = ...` inside displayYear
    -- is absent, so no pVals field is written.
    (s, [displayYear (.num y)])

/-- Run a sequence of events from a state. -/
def runFrom (s : MState) (es : List Ev) : MState :=
  es.foldl (fun t e => (step t e).1) s

/-- Run a sequence of events from the initial state. -/
def run (es : List Ev) : MState :=
  runFrom init es

/-- Number of running `'yeah'` transitions on the chart element. -/
def countRunning (l : List Sched) : ℕ :=
  (l.filter isRunning).length

lemma filter_not_running_no_running (l : List Sched) (i : ℕ) :
    (l.filter fun sc => !isRunning sc && sc.sid != i).filter isRunning = [] := by
  rw [List.filter_eq_nil_iff]
  intro a ha
  have h1 := List.mem_filter.1 ha
  simp only [Bool.and_eq_true, Bool.not_eq_true'] at h1
  simp [h1.2.1]

lemma countRunning_filter_le (l : List Sched) (q : Sched → Bool) :
    countRunning (l.filter q) ≤ countRunning l :=
  List.Sublist.length_le (List.Sublist.filter isRunning (List.filter_sublist l))

/-- A single event preserves the at-most-one-running-sweep bound: the
only event that makes a transition running (`fire`) first removes every
running one (d3 dispatches `interrupt` on the supplanted transition when
a same-named one starts). -/
lemma countRunning_step_le (s : MState) (e : Ev)
    (h : countRunning s.scheds ≤ 1) :
    countRunning (step s e).1.scheds ≤ 1 := by
  cases e with
  | start =>
    simpa [step, countRunning, List.filter_append, isRunning] using h
  | fire =>
    cases hfp : firstPending? s.scheds with
    | none => simpa [step, hfp] using h
    | some pr =>
      obtain ⟨i, d⟩ := pr
      simp only [step, hfp, countRunning, List.filter_append,
        List.length_append, filter_not_running_no_running]
      simp [isRunning]
  | tick t =>
    cases hfr : firstRunning? s.scheds with
    | none => simpa [step, hfr] using h
    | some pr => simpa [step, hfr] using h
  | finish =>
    cases hfr : firstRunning? s.scheds with
    | none => simpa [step, hfr] using h
    | some pr =>
      obtain ⟨i, b⟩ := pr
      simp only [step, hfr]
      exact le_trans (countRunning_filter_le s.scheds _) h
  | stop =>
    simp [step, countRunning]
  | slide v =>
    simpa [step] using h
  | scrub y =>
    simpa [step] using h

/-- C3 (amended).  In every state reachable from startup, at most one
sweep is running: same-named d3 transitions supplant one another (the
newly started one interrupts the running one), so no two sweeps ever run
concurrently — the guard is the library's same-name semantics, not a
check in `startPlaying`. -/
theorem at_most_one_sweep (es : List Ev) :
    countRunning (run es).scheds ≤ 1 := by
  suffices h : ∀ s, countRunning s.scheds ≤ 1 →
      countRunning (runFrom s es).scheds ≤ 1 by
    exact h init (by simp [init, countRunning])
  induction es with
  | nil => intro s h; exact h
  | cons e rest ih =>
    intro s h
    exact ih _ (countRunning_step_le s e h)

/-- C3 counterexample to the claim as stated: pressing play while a sweep
is running (state after `start, fire, tick ½` has exactly one running
sweep) is not a no-op — `startPlaying` has no guard and unconditionally
calls `transition()`, scheduling a second `'yeah'` transition, so the
machine state changes. -/
theorem start_noop_counterexample :
    countRunning (run [Ev.start, Ev.fire, Ev.tick (1 / 2)]).scheds = 1 ∧
    run [Ev.start, Ev.fire, Ev.tick (1 / 2), Ev.start] ≠
      run [Ev.start, Ev.fire, Ev.tick (1 / 2)] := by
  constructor
  · simp only [run, runFrom, List.foldl, step, init, countRunning,
      tickClosure, displayYear, jsAdd, jsSub, jsMul, jsRound, jsOrNum,
      jsInterp, JSVal.toQ, firstPending?, firstRunning?, isRunning,
      Sched.sid, List.filter, List.any, List.append, List.length]
  · intro h
    have h2 := congrArg (fun st => st.scheds.length) h
    simp only [run, runFrom, List.foldl, step, init, tickClosure,
      displayYear, jsAdd, jsSub, jsMul, jsRound, jsOrNum, jsInterp,
      JSVal.toQ, firstPending?, firstRunning?, isRunning, Sched.sid,
      List.filter, List.any, List.append, List.length] at h2
    omega

/-- C4.  `transition()` evaluates its duration callback at the call:
`duration - duration * window.pVals.lastTween`, i.e. the scheduled sweep
lasts exactly `totalDuration * (1 - p)` when the recorded progress
fraction is `p`. -/
theorem start_remaining_duration (s : MState) (p : ℚ) (h0 : 0 ≤ p)
    (h1 : p ≤ 1) (h : s.pv.lastTween = .num p) :
    (step s Ev.start).1.scheds =
      s.scheds ++ [Sched.pending s.nextId (.num (totalDuration * (1 - p)))] := by
  have harith : totalDuration - totalDuration * p = totalDuration * (1 - p) := by
    ring
  simp [step, h, jsSub, jsMul, JSVal.toQ, harith]

/-- Spec scenario for C4: at `progressFraction = 0.5` with
`totalDuration = 209000` ms, `start()` schedules a sweep of exactly
104500 ms. -/
theorem start_remaining_duration_witness :
    (0 : ℚ) ≤ 1 / 2 ∧ (1 / 2 : ℚ) ≤ 1 ∧
    (step ⟨⟨.num (1 / 2), .null, .null⟩, [], 0⟩ Ev.start).1.scheds =
      [Sched.pending 0 (.num 104500)] := by
  refine ⟨by norm_num, by norm_num, ?_⟩
  have h := start_remaining_duration ⟨⟨.num (1 / 2), .null, .null⟩, [], 0⟩
    (1 / 2) (by norm_num) (by norm_num) rfl
  rw [h]
  norm_num [totalDuration]

/-- C8.  A pointer scrub over the overlay calls `displayYear` on the
inverted pointer year: it rebuilds the frame via `interpolateData`,
updates the label and the slider indicator to the rounded year, and
leaves the machine state — in particular every field of `window.pVals` —
unchanged. -/
theorem scrub_transient (s : MState) (y : ℚ) (nations : List Nation) :
    step s (Ev.scrub y) = (s, [displayYear (.num y)]) ∧
    frameOf nations (displayYear (.num y)).dataYear =
      some (interpolateData nations y) ∧
    (displayYear (.num y)).labelText = jsRound (.num y) ∧
    (displayYear (.num y)).sliderValue = jsRound (.num y) :=
  ⟨rfl, rfl, rfl, rfl⟩

lemma any_isRunning_of_firstRunning {l : List Sched} {x : ℕ × ℚ}
    (h : firstRunning? l = some x) : l.any isRunning = true := by
  induction l with
  | nil => simp [firstRunning?] at h
  | cons a rest ih =>
    cases a with
    | pending i d =>
      simp only [firstRunning?] at h
      simp only [List.any_cons, isRunning, Bool.false_or]
      exact ih h
    | running i d b => simp [List.any_cons, isRunning]

/-- C5 counterexample: after `start, fire, tick 3/10` (a tween tick
mid-sweep), `currYear` is 1863 but `lastTween` is still 0, so
`currYear = round(1800 + lastTween * (2009 - 1800))` fails — a tween
tick advances `currTween`/`currYear` without touching `lastTween`. -/
theorem pvals_sync_counterexample :
    (run [Ev.start, Ev.fire, Ev.tick (3 / 10)]).pv.currYear = JSVal.num 1863 ∧
    jsRound (jsInterp 1800 2009
      (run [Ev.start, Ev.fire, Ev.tick (3 / 10)]).pv.lastTween) = JSVal.num 1800 ∧
    (run [Ev.start, Ev.fire, Ev.tick (3 / 10)]).pv.currYear ≠
      jsRound (jsInterp 1800 2009
        (run [Ev.start, Ev.fire, Ev.tick (3 / 10)]).pv.lastTween) := by
  norm_num [run, runFrom, List.foldl, step, init, tickClosure, displayYear,
    jsAdd, jsSub, jsMul, jsRound, jsOrNum, jsInterp, JSVal.toQ,
    firstPending?, firstRunning?, isRunning, Sched.sid, List.filter,
    List.any, totalDuration]

/-- C5 (amended).  `lastTween` and `currYear` are synchronized by the
slider scrub (`calRatio`) and by the interrupt handler, not by tween
ticks: after `slide v`, `currYear = v` and
`lastTween = (v - 1800) / (2009 - 1800)`; after a tick followed by
`stop()` on a sweep whose captured base is 1800,
`currYear = round(1800 + lastTween * (2009 - 1800))` holds because the
interrupt handler copies `currTween` into `lastTween`.  During ticks the
claim's equation relates `currYear` to `currTween`, while `lastTween`
keeps its value from the sweep's start. -/
theorem pvals_sync_amended :
    (∀ (s : MState) (v : ℚ),
      (step s (Ev.slide v)).1.pv.currYear = .num v ∧
      (step s (Ev.slide v)).1.pv.lastTween =
        .num ((v - 1800) / (2009 - 1800))) ∧
    (∀ (s : MState) (t : ℚ) (i : ℕ),
      firstRunning? s.scheds = some (i, 1800) →
      (step (step s (Ev.tick t)).1 Ev.stop).1.pv.currYear =
        jsRound (jsInterp 1800 2009
          (step (step s (Ev.tick t)).1 Ev.stop).1.pv.lastTween)) := by
  constructor
  · intro s v
    constructor
    · simp [step, calRatio]
    · simp only [step, calRatio, jsDiv, jsSub, JSVal.toQ]
      norm_num
  · intro s t i h
    have hany : s.scheds.any isRunning = true := any_isRunning_of_firstRunning h
    simp only [step, h, tickClosure, hany, if_pos]

/-- Concrete instances for the amended C5: sliding to 1904 commits
`currYear = 1904`; interrupting after `start, fire, tick ½` leaves
`currYear` equal to the rounded year derived from `lastTween`. -/
theorem pvals_sync_amended_witness :
    firstRunning? (run [Ev.start, Ev.fire]).scheds = some (0, 1800) ∧
    (step (run [Ev.start, Ev.fire]) (Ev.slide 1904)).1.pv.currYear =
      JSVal.num 1904 ∧
    (step (step (run [Ev.start, Ev.fire]) (Ev.tick (1 / 2))).1
        Ev.stop).1.pv.currYear =
      jsRound (jsInterp 1800 2009
        (step (step (run [Ev.start, Ev.fire]) (Ev.tick (1 / 2))).1
          Ev.stop).1.pv.lastTween) := by
  refine ⟨rfl, ?_, ?_⟩
  · exact (pvals_sync_amended.1 (run [Ev.start, Ev.fire]) 1904).1
  · exact pvals_sync_amended.2 (run [Ev.start, Ev.fire]) (1 / 2) 0 rfl

/-- C10.  The slider's `slide` handler commits playback position, unlike
the pointer scrub: it renders the frame at `v`, sets `currYear = v`, sets
`lastTween = (v - 1800) / (2009 - 1800)` via `calRatio`, and a subsequent
`start()`-then-started sweep's tween at eased elapsed 0 reproduces the
year `v` exactly. -/
theorem slider_commits (s : MState) (v : ℚ) (hv1 : 1800 ≤ v)
    (hv2 : v ≤ 2009) (hidle : s.scheds = []) :
    (step s (Ev.slide v)).2 = [displayYear (.num v)] ∧
    (step s (Ev.slide v)).1.pv.currYear = .num v ∧
    (step s (Ev.slide v)).1.pv.lastTween =
      .num ((v - 1800) / (2009 - 1800)) ∧
    (step (runFrom (step s (Ev.slide v)).1 [Ev.start, Ev.fire])
        (Ev.tick 0)).2 = [displayYear (.num v)] := by
  refine ⟨rfl, (pvals_sync_amended.1 s v).1, (pvals_sync_amended.1 s v).2, ?_⟩
  simp only [runFrom, List.foldl, step, calRatio, tickClosure, displayYear,
    jsAdd, jsSub, jsMul, jsDiv, jsRound, jsOrNum, jsInterp, JSVal.toQ,
    firstPending?, firstRunning?, isRunning, Sched.sid, List.filter,
    List.any, List.append, hidle, totalDuration]
  norm_num
  simp only [firstRunning?]
  have he : (1800 : ℚ) * (1 - (v - 1800) / 209) + 2009 * ((v - 1800) / 209) = v := by
    field_simp
    ring
  rw [he]

/-- Scenario instance for C10 at `v = 1904` from the idle initial state,
through `slider_commits`. -/
theorem slider_commits_witness :
    (1800 : ℚ) ≤ 1904 ∧ (1904 : ℚ) ≤ 2009 ∧
    (step init (Ev.slide 1904)).1.pv.currYear = JSVal.num 1904 ∧
    (step (runFrom (step init (Ev.slide 1904)).1 [Ev.start, Ev.fire])
        (Ev.tick 0)).2 = [displayYear (.num 1904)] := by
  have h := slider_commits init 1904 (by norm_num) (by norm_num) rfl
  exact ⟨by norm_num, by norm_num, h.2.1, h.2.2.2⟩

/-- C2.  Interrupting a sweep at eased fraction `u` records
`lastTween = u` and `currYear = round(1800 + 209 u)`; pressing play again
immediately resumes from exactly there: the new sweep's tween at eased
elapsed 0 emits exactly the fractional year `1800 + 209 u` of the
interruption (so the restored `currYear` equals the recorded one), not
1800 and not any other year.  The mechanism: the `start` listener runs
the closure once with `t = undefined`, poisoning `currYear` to `NaN`, so
the tween factory's `currYear || 1800` always captures base 1800, and
`t += lastTween` then lands every tick at the recorded fraction. -/
theorem stop_start_resumes (u : ℚ) (hu0 : 0 < u) (hu1 : u ≤ 1) :
    (run [Ev.start, Ev.fire, Ev.tick u, Ev.stop]).pv.lastTween = .num u ∧
    (run [Ev.start, Ev.fire, Ev.tick u, Ev.stop]).pv.currYear =
      jsRound (.num (1800 + 209 * u)) ∧
    (step (run [Ev.start, Ev.fire, Ev.tick u, Ev.stop, Ev.start, Ev.fire])
        (Ev.tick 0)).2 = [displayYear (.num (1800 + 209 * u))] ∧
    (step (run [Ev.start, Ev.fire, Ev.tick u, Ev.stop, Ev.start, Ev.fire])
        (Ev.tick 0)).1.pv.currYear =
      (run [Ev.start, Ev.fire, Ev.tick u, Ev.stop]).pv.currYear ∧
    (1800 : ℚ) + 209 * u ≠ 1800 := by
  have he : (1800 : ℚ) * (1 - u) + 2009 * u = 1800 + 209 * u := by ring
  simp only [run, runFrom, List.foldl, step, init, tickClosure, displayYear,
    jsAdd, jsSub, jsMul, jsRound, jsOrNum, jsInterp, JSVal.toQ,
    firstPending?, firstRunning?, isRunning, Sched.sid, List.filter,
    List.any, List.append, totalDuration]
  norm_num [he]
  linarith

/-- Spec scenario instance for C2 at interruption fraction `u = ½`:
the sweep interrupted there resumes at exactly the fractional year
`1800 + 209 / 2`, through `stop_start_resumes`. -/
theorem stop_start_resumes_witness :
    (run [Ev.start, Ev.fire, Ev.tick (1 / 2), Ev.stop]).pv.lastTween =
      JSVal.num (1 / 2) ∧
    (step (run [Ev.start, Ev.fire, Ev.tick (1 / 2), Ev.stop, Ev.start,
        Ev.fire]) (Ev.tick 0)).2 =
      [displayYear (.num (1800 + 209 * (1 / 2)))] ∧
    (step (run [Ev.start, Ev.fire, Ev.tick (1 / 2), Ev.stop, Ev.start,
        Ev.fire]) (Ev.tick 0)).1.pv.currYear =
      (run [Ev.start, Ev.fire, Ev.tick (1 / 2), Ev.stop]).pv.currYear := by
  have h := stop_start_resumes (1 / 2) (by norm_num) (by norm_num)
  exact ⟨h.1, h.2.2.1, h.2.2.2.1⟩

/-- Spec scenario for C1: on `[[1800,100],[1850,200],[1900,300]]` the
value at 1825 is 150, through `interpolateValues_between` at `k = 0`. -/
theorem interpolateValues_between_witness :
    sortedStrict [((1800 : ℚ), 100), (1850, 200), (1900, 300)] ∧
    interpolateValues [((1800 : ℚ), 100), (1850, 200), (1900, 300)] 1825 = 150 := by
  refine ⟨by decide, ?_⟩
  have h := interpolateValues_between
    [((1800 : ℚ), 100), (1850, 200), (1900, 300)] 0 1825
    (by decide) (by norm_num) (by norm_num [List.getD]) (by norm_num [List.getD])
  rw [h]
  norm_num [List.getD]

/-- Spec scenario instance for C6: the value at the sample year 1800 is
exactly 100, through `interpolateValues_at_sample` at `k = 0`. -/
theorem interpolateValues_at_sample_witness :
    sortedStrict [((1800 : ℚ), 100), (1850, 200), (1900, 300)] ∧
    interpolateValues [((1800 : ℚ), 100), (1850, 200), (1900, 300)] 1800 = 100 := by
  refine ⟨by decide, ?_⟩
  have h := interpolateValues_at_sample
    [((1800 : ℚ), 100), (1850, 200), (1900, 300)] 0
    (by decide) (by norm_num) (by norm_num)
  simpa [List.getD] using h

/-- Spec scenario for C7: the value at 1700 (below the first sample year)
is the first value 100, through `interpolateValues_before_first`. -/
theorem interpolateValues_before_first_witness :
    sortedLe [((1800 : ℚ), 100), (1850, 200), (1900, 300)] ∧
    interpolateValues [((1800 : ℚ), 100), (1850, 200), (1900, 300)] 1700 = 100 := by
  refine ⟨by decide, ?_⟩
  have h := interpolateValues_before_first
    [((1800 : ℚ), 100), (1850, 200), (1900, 300)] 1700
    (by decide) (by norm_num) (by norm_num [List.getD])
  simpa [List.getD] using h

/-- Concrete instance for C9: querying the scenario series at 1950, past
the last sample year 1900, extrapolates the last two samples to 400,
through `interpolateValues_after_last`. -/
theorem interpolateValues_after_last_witness :
    sortedStrict [((1800 : ℚ), 100), (1850, 200), (1900, 300)] ∧
    interpolateValues [((1800 : ℚ), 100), (1850, 200), (1900, 300)] 1950 = 400 := by
  refine ⟨by decide, ?_⟩
  have h := interpolateValues_after_last
    [((1800 : ℚ), 100), (1850, 200), (1900, 300)] 1950
    (by decide) (by norm_num) (by norm_num [List.getD])
  rw [h]
  norm_num [List.getD]

end Motion

